import Mathlib

/-!
# Verification of the ziplinter / rc-zip parsing core

A shallow embedding, in Lean 4, of the sans-I/O ZIP parsing engine of this
repository (`rc-zip/src/fsm/archive.rs`, `rc-zip/src/fsm/entry/mod.rs`,
`rc-zip/src/fsm/entry/aex_dec.rs`, `rc-zip/src/fsm/parsed_ranges.rs`),
together with theorems settling the specification claims about it.

Machine integers are modelled as `Nat` (with explicit `% 2^w` where wrapping
matters, e.g. the `as u16` truncations of the central-directory record count).
Rust panics (`assert!`, `unwrap`, `panic!`, slice-index underflow) are modelled
by explicit `panic` constructors / `Option` so that "does not panic" is a
provable statement.  Fallible operations return `Except`-like result types.

The binary record parsers live in the `rc-zip` `parse` module, which is not
part of the verified sources; state-machine steps that would invoke a parser
instead take the parser outcome (`ParseResult`) as an argument.  The
third-party codecs (deflate, deflate64, bzip2, lzma, zstd) are external
collaborators, out of scope per the specification; only the two in-repo
codecs (Store, AE-x) are given behaviour.
-/

namespace ZipLinter

/-! ## Basic data model -/

/-- AE-x extra field (WinZip AES). Only the `mode` byte matters to the
decompressor: 1, 2, 3 select salt sizes 8, 12, 16. -/
structure ExtraAexField where
  mode : Nat
  deriving Repr, DecidableEq

/-- Compression method, as dispatched by `AnyDecompressor::new`.
`other c` stands for any method code not among the named ones. -/
inductive Method where
  | store
  | deflate
  | deflate64
  | bzip2
  | lzma
  | zstd
  | aex
  | other (code : Nat)
  deriving Repr, DecidableEq

/-- The normalized per-file record (`rc_zip::parse::Entry`), restricted to the
fields the entry state machine reads. Sizes are 64-bit (`Nat`). -/
structure Entry where
  name : String
  method : Method
  crc32 : Nat
  compressed_size : Nat
  uncompressed_size : Nat
  header_offset : Nat
  aex : Option ExtraAexField
  deriving Repr, DecidableEq

/-- The raw local file header (`rc_zip::parse::LocalFileHeader`), restricted to
the fields `EntryFsm` reads. `flags` is the u16 general-purpose bit flag;
bit 3 is the data-descriptor flag. The 32-bit declared sizes use the
`0xFFFFFFFF` sentinel for zip64. -/
structure LocalFileHeader where
  method : Method
  flags : Nat
  crc32 : Nat
  compressed_size : Nat
  uncompressed_size : Nat
  name : String
  deriving Repr, DecidableEq

/-- `LocalFileHeader::has_data_descriptor`: general-purpose flag bit 3. -/
def LocalFileHeader.has_data_descriptor (h : LocalFileHeader) : Bool :=
  (h.flags / 8) % 2 = 1

/-- Modelled from the spec: `LocalFileHeader::as_entry` (the `parse` module is
not among the verified sources). "If `self.entry` was not supplied upstream,
derive one from the local header": the normalized entry takes its fields from
the raw header; the local header does not know its own file offset, so the
derived `header_offset` is zero. -/
def LocalFileHeader.as_entry (h : LocalFileHeader) : Except Unit Entry :=
  .ok {
    name := h.name
    method := h.method
    crc32 := h.crc32
    compressed_size := h.compressed_size
    uncompressed_size := h.uncompressed_size
    header_offset := 0
    aex := none
  }

/-- The data descriptor record, restricted to the field `Validate` reads. -/
structure DataDescriptorRecord where
  crc32 : Nat
  deriving Repr, DecidableEq

/-- Size decompressed + crc32 computed, accumulated by the data phase. -/
structure EntryReadMetrics where
  uncompressed_size : Nat
  crc32 : Nat
  deriving Repr, DecidableEq

/-! ## Errors (`rc-zip/src/error.rs` taxonomy, as used by the verified files) -/

inductive FormatError where
  | directoryEndSignatureNotFound
  | directory64EndRecordInvalid
  | invalidCentralRecord (expected actual : Nat)
  | invalidLocalHeader
  | invalidDataDescriptor
  | invalidExtraField
  | wrongSize (expected actual : Nat)
  | wrongChecksum (expected actual : Nat)
  deriving Repr, DecidableEq

inductive UnsupportedError where
  | methodNotSupported (m : Method)
  | methodNotEnabled (m : Method)
  deriving Repr, DecidableEq

inductive Error where
  | format (e : FormatError)
  | unsupported (e : UnsupportedError)
  | io (msg : String)
  deriving Repr, DecidableEq

/-! ## ParsedRanges (`rc-zip/src/fsm/parsed_ranges.rs`)

An append-only journal of `(start, end, kind, optional filename)` tuples.
The half-open range `[start, stop)` is written with field names `start`/`stop`
(`end` is a Lean keyword). -/

structure ParsedRange where
  start : Nat
  stop : Nat
  contains : String
  filename : Option String
  deriving Repr, DecidableEq

abbrev ParsedRanges := List ParsedRange

def ParsedRanges.new : ParsedRanges := []

/-- `ParsedRanges::insert_range`: push `(range.start, range.end, kind, name)`.
No coalescing, no validation. -/
def ParsedRanges.insert_range (pr : ParsedRanges) (start stop : Nat)
    (contains : String) (filename : Option String) : ParsedRanges :=
  pr ++ [{ start := start, stop := stop, contains := contains, filename := filename }]

/-- `ParsedRanges::insert_offset_length`: insert `offset..offset+length`. -/
def ParsedRanges.insert_offset_length (pr : ParsedRanges) (offset length : Nat)
    (contains : String) (filename : Option String) : ParsedRanges :=
  pr.insert_range offset (offset + length) contains filename

/-- Insertion through the optional shared journal handle
(`Option<Rc<Mutex<ParsedRanges>>>` in `EntryFsm`). -/
def insertRangeOpt (pr : Option ParsedRanges) (start stop : Nat)
    (contains : String) (filename : Option String) : Option ParsedRanges :=
  pr.map (fun j => j.insert_range start stop contains filename)

/-! ## CRC-32 (`crc32fast::Hasher` as used by the data phase)

Standard reflected CRC-32 (polynomial `0xEDB88320`), bit by bit. -/

def crc32Round (c : Nat) : Nat :=
  if c % 2 = 1 then Nat.xor (c / 2) 0xEDB88320 else c / 2

def crc32Byte (c b : Nat) : Nat :=
  crc32Round^[8] (Nat.xor c (b % 256))

/-- `crc32fast::Hasher::new()`: accumulator starts at `0xFFFFFFFF`. -/
def hasherNew : Nat := 0xFFFFFFFF

/-- `Hasher::update`: fold the bytes into the accumulator. -/
def hasherUpdate (c : Nat) (bytes : List Nat) : Nat :=
  bytes.foldl crc32Byte c

/-- `Hasher::finalize`: final xor. -/
def hasherFinalize (c : Nat) : Nat := Nat.xor c 0xFFFFFFFF

/-! ## Decompressor contract types (`fsm/entry/mod.rs`) -/

/-- Outcome of one `decompress` call. -/
structure DecompressOutcome where
  bytes_read : Nat
  bytes_written : Nat
  deriving Repr, DecidableEq

/-- Whether more input will be fed to the decompressor after this call. -/
inductive HasMoreInput where
  | yes
  | no
  deriving Repr, DecidableEq

/-! ## AE-x pseudo-decompressor (`fsm/entry/aex_dec.rs`) -/

/-- `AexDec` state: the extra field plus the three captured blobs. -/
structure AexDec where
  aex : ExtraAexField
  salt_value : Option (List Nat)
  password_verification_value : Option (List Nat)
  authentication_code : Option (List Nat)
  deriving Repr, DecidableEq

/-- The AE-x side data surfaced on completion. -/
structure AexData where
  salt_value : List Nat
  password_verification_value : List Nat
  authentication_code : List Nat
  deriving Repr, DecidableEq

def AexDec.new (aex : ExtraAexField) : AexDec :=
  { aex := aex, salt_value := none, password_verification_value := none,
    authentication_code := none }

/-- `AexDec::take_aex_data`: `Some` only when all three blobs were captured. -/
def AexDec.take_aex_data (d : AexDec) : Option AexData :=
  match d.salt_value, d.password_verification_value, d.authentication_code with
  | some s, some p, some a =>
      some { salt_value := s, password_verification_value := p, authentication_code := a }
  | _, _, _ => none

/-- Result of one AE-x `decompress` call: the updated state, the outcome, and
the bytes written to the output buffer. `panic` models the Rust panic on
`rest.split_at(rest.len() - 10)` when `rest` is shorter than 10 bytes. -/
inductive AexStep where
  | ok (dec : AexDec) (outcome : DecompressOutcome) (written : List Nat)
  | err (e : Error)
  | panic
  deriving Repr, DecidableEq

/-- Body of `AexDec::decompress` once `salt_size` has been determined from
the mode byte (`aex_dec.rs` lines 59-91). -/
def AexDec.decompressWithSalt (d : AexDec) (in_buf : List Nat) (out_cap : Nat)
    (has_more_input : HasMoreInput) (salt_size : Nat) : AexStep :=
  if in_buf.length < salt_size + 2 then
    .ok d { bytes_read := in_buf.length, bytes_written := 0 } []
  else
    let stage :=
      if d.salt_value.isNone then
        ({ d with
            salt_value := some (in_buf.take salt_size),
            password_verification_value :=
              some ((in_buf.drop salt_size).take 2) },
          in_buf.drop (salt_size + 2))
      else (d, in_buf)
    let d1 := stage.1
    let rest := stage.2
    match has_more_input with
    | .no =>
        if rest.length < 10 then .panic
        else
          let d2 := { d1 with
            authentication_code := some (rest.drop (rest.length - 10)) }
          let n := min in_buf.length out_cap
          .ok d2 { bytes_read := n, bytes_written := n } (in_buf.take n)
    | .yes =>
        let n := min in_buf.length out_cap
        .ok d1 { bytes_read := n, bytes_written := n } (in_buf.take n)

/-- `AexDec::decompress` (`aex_dec.rs` lines 40-93), faithful translation.
`in_buf` is the input slice, `out_cap` the output buffer length. -/
def AexDec.decompress (d : AexDec) (in_buf : List Nat) (out_cap : Nat)
    (has_more_input : HasMoreInput) : AexStep :=
  match d.aex.mode with
  | 1 => AexDec.decompressWithSalt d in_buf out_cap has_more_input 8
  | 2 => AexDec.decompressWithSalt d in_buf out_cap has_more_input 12
  | 3 => AexDec.decompressWithSalt d in_buf out_cap has_more_input 16
  | _ => .err (.format .invalidExtraField)

/-! ## Store codec and decompressor dispatch (`fsm/entry/mod.rs`)

`store_dec.rs` is not among the verified sources. -/

/-- Modelled from the spec: `store_dec.rs` (the Store codec file is not among
the verified sources). "Store: identity copy,
`bytes_read = bytes_written = min(in.len, out.len)`." -/
def storeDecompress (in_buf : List Nat) (out_cap : Nat) :
    DecompressOutcome × List Nat :=
  let n := min in_buf.length out_cap
  ({ bytes_read := n, bytes_written := n }, in_buf.take n)

/-- `AnyDecompressor`: the dispatch enum. The five third-party codecs are
external collaborators (out of scope per the spec) and carry no modelled
state; the two in-repo codecs are Store and AE-x. -/
inductive AnyDecompressor where
  | store
  | deflate
  | deflate64
  | bzip2
  | lzma (uncompressed_size : Option Nat)
  | zstd
  | aex (dec : AexDec)
  deriving Repr, DecidableEq

/-- Result of `AnyDecompressor::new`: `panic` models the `panic!()` on an
AE-x method without usable AE-x extra data. -/
inductive DecNewResult where
  | ok (dec : AnyDecompressor)
  | err (e : Error)
  | panic
  deriving Repr, DecidableEq

/-- `AnyDecompressor::new` (`fsm/entry/mod.rs` lines 509-567). `features`
tells which optional codecs were compiled in (`cfg(feature = ...)`);
Store and AE-x are unconditional. -/
def AnyDecompressor.new (features : Method → Bool) (method : Method)
    (entry : Option Entry) : DecNewResult :=
  match method with
  | .store => .ok .store
  | .deflate =>
      if features .deflate then .ok .deflate
      else .err (.unsupported (.methodNotEnabled .deflate))
  | .deflate64 =>
      if features .deflate64 then .ok .deflate64
      else .err (.unsupported (.methodNotEnabled .deflate64))
  | .bzip2 =>
      if features .bzip2 then .ok .bzip2
      else .err (.unsupported (.methodNotEnabled .bzip2))
  | .lzma =>
      if features .lzma then .ok (.lzma (entry.map (·.uncompressed_size)))
      else .err (.unsupported (.methodNotEnabled .lzma))
  | .zstd =>
      if features .zstd then .ok .zstd
      else .err (.unsupported (.methodNotEnabled .zstd))
  | .aex =>
      match entry with
      | some e =>
          match e.aex with
          | some a => .ok (.aex (AexDec.new a))
          | none => .panic
      | none => .panic
  | .other c => .err (.unsupported (.methodNotSupported (.other c)))

/-- Result of one `AnyDecompressor::decompress` call: the updated decompressor
state, the outcome, and the bytes written to the output buffer. -/
inductive DecompressResult where
  | ok (dec : AnyDecompressor) (outcome : DecompressOutcome) (written : List Nat)
  | err (e : Error)
  | panic
  deriving Repr, DecidableEq

/-- `AnyDecompressor::decompress`: forward to the appropriate codec.
The external codecs are not modelled (out of scope per the spec); calls to
them yield a marker error and are never relied on by any theorem. -/
def AnyDecompressor.decompress (d : AnyDecompressor) (in_buf : List Nat)
    (out_cap : Nat) (has_more_input : HasMoreInput) : DecompressResult :=
  match d with
  | .store =>
      let r := storeDecompress in_buf out_cap
      .ok .store r.1 r.2
  | .aex dec =>
      match dec.decompress in_buf out_cap has_more_input with
      | .ok dec1 outcome written => .ok (.aex dec1) outcome written
      | .err e => .err e
      | .panic => .panic
  | _ => .err (.io "external codec not modelled")

/-! ## Entry state machine (`fsm/entry/mod.rs`) -/

/-- The byte reservoir (`oval::Buffer` as used by `EntryFsm`): a capacity
fixed at construction and the currently readable bytes. `consume` drops
bytes from the front. Ring mechanics (`position`/`end`/`shift`) are
abstracted into the readable-bytes view. -/
structure Buffer where
  capacity : Nat
  data : List Nat
  deriving Repr, DecidableEq

def Buffer.with_capacity (n : Nat) : Buffer := { capacity := n, data := [] }

def Buffer.consume (b : Buffer) (n : Nat) : Buffer :=
  { b with data := b.data.drop n }

/-- Outcome of a `winnow` partial parser: a parsed value together with the
number of input bytes consumed, or one of the three failure modes
(`Incomplete`, `Backtrack`, `Cut`). The binary parsers live in the `parse`
module, which is not among the verified sources, so state-machine steps take
the parser outcome as an argument. -/
inductive ParseResult (α : Type) where
  | ok (value : α) (consumed : Nat)
  | incomplete
  | backtrack
  | cut
  deriving Repr, DecidableEq

/-- `State` of `EntryFsm` (`fsm/entry/mod.rs` lines 43-91). The crc32 hasher
is its accumulator word. -/
inductive EntryState where
  | readLocalHeader
  | readData (has_data_descriptor : Bool) (is_zip64 : Bool)
      (compressed_bytes : Nat) (uncompressed_bytes : Nat) (hasher : Nat)
      (decompressor : AnyDecompressor) (data_start : Nat)
  | readDataDescriptor (is_zip64 : Bool) (metrics : EntryReadMetrics)
      (data_descriptor_start : Nat)
  | validate (metrics : EntryReadMetrics) (descriptor : Option DataDescriptorRecord)
  deriving Repr, DecidableEq

/-- The entry state machine value. The `Rc<Mutex<ParsedRanges>>` shared
journal is modelled as an owned optional journal (the spec sanctions either
realization: "single logical journal, written by whichever FSM is currently
active"). -/
structure EntryFsm where
  state : EntryState
  entry : Option Entry
  local_header : Option LocalFileHeader
  buffer : Buffer
  parsed_ranges : Option ParsedRanges
  aex_data : Option AexData
  deriving Repr, DecidableEq

/-- `EntryFsm::BUF_CAPACITY = 256 * 1024`. -/
def BUF_CAPACITY : Nat := 256 * 1024

/-- `EntryFsm::new` (`fsm/entry/mod.rs` lines 105-126). The function never
returns an error value; its only failure mode is the
`assert!(buffer.capacity() >= BUF_CAPACITY, "buffer too small")` panic,
modelled as `none`. -/
def EntryFsm.new (entry : Option Entry) (buffer : Option Buffer)
    (parsed_ranges : Option ParsedRanges) : Option EntryFsm :=
  match buffer with
  | some b =>
      if b.capacity ≥ BUF_CAPACITY then
        some { state := .readLocalHeader, entry := entry, local_header := none,
               buffer := b, parsed_ranges := parsed_ranges, aex_data := none }
      else none
  | none =>
      some { state := .readLocalHeader, entry := entry, local_header := none,
             buffer := Buffer.with_capacity BUF_CAPACITY,
             parsed_ranges := parsed_ranges, aex_data := none }

/-- Result of `EntryFsm::process`: `Continue((self, outcome))`,
`Done((buffer, local_header, aex_data))` — with the journal surfaced for
observability since the model owns it —, an error, or a panic. -/
inductive EntryProcessResult where
  | continueWith (fsm : EntryFsm) (outcome : DecompressOutcome)
  | done (buffer : Buffer) (local_header : Option LocalFileHeader)
      (aex_data : Option AexData) (journal : Option ParsedRanges)
  | err (e : Error)
  | panic
  deriving Repr, DecidableEq

/-- Result of `EntryFsm::internal_process_local_header`
(`Result<bool, Error>` plus the mutated machine; `panic` models the
`Method::Aex` panic inside `AnyDecompressor::new`). -/
inductive LocalHeaderStepResult where
  | ok (completed : Bool) (fsm : EntryFsm)
  | err (e : Error)
  | panic
  deriving Repr, DecidableEq

/-- `EntryFsm::internal_process_local_header` (`fsm/entry/mod.rs` lines
161-213), with the `LocalFileHeader::parser` outcome supplied as `po`.
On a successful parse: build the decompressor from the method of the header and
the (possibly absent) upstream entry, derive the entry from the header if
absent, record the `local file header` range, stash the owned header,
consume the parsed bytes, and move to `ReadData`. -/
def internalProcessLocalHeader (fsm : EntryFsm)
    (features : Method → Bool) (po : ParseResult LocalFileHeader) :
    LocalHeaderStepResult :=
  match po with
  | .incomplete => .ok false fsm
  | .backtrack => .err (.format .invalidLocalHeader)
  | .cut => .err (.format .invalidLocalHeader)
  | .ok header consumed =>
      match AnyDecompressor.new features header.method fsm.entry with
      | .err e => .err e
      | .panic => .panic
      | .ok decompressor =>
          let entry1 : Option Entry :=
            match fsm.entry with
            | some e => some e
            | none =>
                match header.as_entry with
                | .ok e => some e
                | .error _ => none
          match entry1 with
          | none => .panic
          | some e =>
              let start := e.header_offset
              let length := consumed
              .ok true { fsm with
                state := .readData
                  header.has_data_descriptor
                  (header.compressed_size = 4294967295 ∨
                    header.uncompressed_size = 4294967295)
                  0 0 hasherNew decompressor (start + length)
                entry := some e
                parsed_ranges :=
                  fsm.parsed_ranges.map
                    (fun j => j.insert_offset_length start length
                      "local file header" (some e.name))
                local_header := some header
                buffer := fsm.buffer.consume consumed }

/-- The expected CRC-32 (`fsm/entry/mod.rs` lines 406-412): the entry CRC if
nonzero, else the descriptor CRC if a descriptor was parsed, else 0. -/
def expectedCrc (entry : Entry) (descriptor : Option DataDescriptorRecord) : Nat :=
  if entry.crc32 ≠ 0 then entry.crc32
  else
    match descriptor with
    | some d => d.crc32
    | none => 0

/-- The `S::Validate` arm of `EntryFsm::process` (`fsm/entry/mod.rs` lines
400-437): compute the expected CRC, run the size check and the checksum
check (both skipped when `entry.aex` is set), and finish. -/
def processValidate (fsm : EntryFsm) : EntryProcessResult :=
  match fsm.state with
  | .validate metrics descriptor =>
      match fsm.entry with
      | none => .panic
      | some entry =>
          let expected_crc32 := expectedCrc entry descriptor
          if entry.uncompressed_size ≠ metrics.uncompressed_size ∧
             entry.aex = none then
            .err (.format (.wrongSize entry.uncompressed_size
              metrics.uncompressed_size))
          else if expected_crc32 ≠ 0 ∧ expected_crc32 ≠ metrics.crc32 ∧
              entry.aex = none then
            .err (.format (.wrongChecksum expected_crc32 metrics.crc32))
          else
            .done fsm.buffer fsm.local_header fsm.aex_data fsm.parsed_ranges
  | _ => .panic

/-- The `S::ReadDataDescriptor` arm of `EntryFsm::process` (`fsm/entry/mod.rs`
lines 367-398), with the `DataDescriptorRecord::mk_parser(is_zip64)` outcome
supplied as `po`. On success: consume, record the `data descriptor` range,
move to `Validate` and recurse (`self.process(out)`). -/
def processReadDataDescriptor (fsm : EntryFsm)
    (po : ParseResult DataDescriptorRecord) : EntryProcessResult :=
  match fsm.state with
  | .readDataDescriptor _is_zip64 metrics data_descriptor_start =>
      match po with
      | .incomplete => .continueWith fsm { bytes_read := 0, bytes_written := 0 }
      | .backtrack => .err (.format .invalidDataDescriptor)
      | .cut => .err (.format .invalidDataDescriptor)
      | .ok descriptor consumed =>
          match fsm.entry with
          | none => .panic
          | some entry =>
              let fsm1 := { fsm with
                buffer := fsm.buffer.consume consumed
                parsed_ranges :=
                  fsm.parsed_ranges.map
                    (fun j => j.insert_offset_length data_descriptor_start
                      consumed "data descriptor" (some entry.name))
                state := .validate metrics (some descriptor) }
              processValidate fsm1
  | _ => .panic

/-- The input clamp of the data phase (`fsm/entry/mod.rs` lines 277-289):
`in_buf_max_len = min(in_buf.len(), compressed_size - compressed_bytes)`,
and `has_more_input = No` iff this turn exhausts the budget. -/
def clampInput (in_len compressed_size compressed_bytes : Nat) :
    Nat × HasMoreInput :=
  let in_buf_max_len := min in_len (compressed_size - compressed_bytes)
  let fed_bytes_after_this := compressed_bytes + in_buf_max_len
  (in_buf_max_len,
    if fed_bytes_after_this = compressed_size then .no else .yes)

/-- The `S::ReadData` arm of `EntryFsm::process` (`fsm/entry/mod.rs` lines
259-366), with the data-descriptor parser outcome `ddPo` supplied for the
possible tail call into `ReadDataDescriptor`. -/
def processReadData (fsm : EntryFsm)
    (ddPo : ParseResult DataDescriptorRecord) (out_cap : Nat) :
    EntryProcessResult :=
  match fsm.state with
  | .readData has_data_descriptor is_zip64 compressed_bytes
      uncompressed_bytes hasher decompressor data_start =>
      match fsm.entry with
      | none => .panic
      | some entry =>
          let in_buf := fsm.buffer.data
          if in_buf.length = 0 ∧ compressed_bytes < entry.compressed_size then
            .continueWith fsm { bytes_read := 0, bytes_written := 0 }
          else
            let clamp := clampInput in_buf.length entry.compressed_size
              compressed_bytes
            let in_fed := in_buf.take clamp.1
            let bytes_fed_this_turn := clamp.1
            let has_more_input := clamp.2
            match decompressor.decompress in_fed out_cap has_more_input with
            | .err e => .err e
            | .panic => .panic
            | .ok dec1 outcome written =>
                let buffer1 := fsm.buffer.consume outcome.bytes_read
                let compressed_bytes1 := compressed_bytes + outcome.bytes_read
                if outcome.bytes_written = 0 ∧
                   compressed_bytes1 = entry.compressed_size then
                  let file_data_end := data_start + compressed_bytes1
                  let journal1 :=
                    fsm.parsed_ranges.map
                      (fun j => j.insert_range data_start file_data_end
                        "file data" (some entry.name))
                  let aex_data1 :=
                    match dec1 with
                    | .aex aex_dec => aex_dec.take_aex_data
                    | _ => fsm.aex_data
                  let metrics : EntryReadMetrics :=
                    { uncompressed_size := uncompressed_bytes,
                      crc32 := hasherFinalize hasher }
                  if has_data_descriptor then
                    processReadDataDescriptor
                      { fsm with
                        state := .readDataDescriptor is_zip64 metrics file_data_end
                        buffer := buffer1
                        parsed_ranges := journal1
                        aex_data := aex_data1 } ddPo
                  else
                    processValidate
                      { fsm with
                        state := .validate metrics none
                        buffer := buffer1
                        parsed_ranges := journal1
                        aex_data := aex_data1 }
                else if outcome.bytes_written = 0 ∧ outcome.bytes_read = 0 ∧
                    bytes_fed_this_turn = 0 then
                  .err (.io "decompressor made no progress")
                else
                  .continueWith
                    { fsm with
                      state := .readData has_data_descriptor is_zip64
                        compressed_bytes1
                        (uncompressed_bytes + outcome.bytes_written)
                        (hasherUpdate hasher written) dec1 data_start
                      buffer := buffer1 }
                    outcome
  | _ => .panic

/-- `EntryFsm::process` (`fsm/entry/mod.rs` lines 225-443): dispatch on the
current state; a completed local header falls through into the data phase
within the same call (the continue of the process_state loop). -/
def EntryFsm.process (fsm : EntryFsm) (features : Method → Bool)
    (lhPo : ParseResult LocalFileHeader)
    (ddPo : ParseResult DataDescriptorRecord) (out_cap : Nat) :
    EntryProcessResult :=
  match fsm.state with
  | .readLocalHeader =>
      match internalProcessLocalHeader fsm features lhPo with
      | .err e => .err e
      | .panic => .panic
      | .ok completed fsm1 =>
          if completed then processReadData fsm1 ddPo out_cap
          else .continueWith fsm1 { bytes_read := 0, bytes_written := 0 }
  | .readData _ _ _ _ _ _ _ => processReadData fsm ddPo out_cap
  | .readDataDescriptor _ _ _ => processReadDataDescriptor fsm ddPo
  | .validate _ _ => processValidate fsm

/-! ## Archive state machine (`fsm/archive.rs`)

The binary records and the `EndOfCentralDirectory` union live in the `parse`
module, which is not among the verified sources; they are modelled from the
spec with exactly the fields the archive FSM reads. -/

/-- `rc_zip::parse::Located`: a record plus its file offset. -/
structure Located (α : Type) where
  offset : Nat
  inner : α
  deriving Repr, DecidableEq

/-- Modelled from the spec: the 32-bit end-of-central-directory record
(`parse` module, not among the verified sources), restricted to the fields
the archive FSM reads through the `EndOfCentralDirectory` union. -/
structure EndOfCentralDirectoryRecord where
  directory_offset : Nat
  directory_records : Nat
  deriving Repr, DecidableEq

/-- Modelled from the spec: the 20-byte ZIP64 EOCD locator (`parse` module,
not among the verified sources): it points at the ZIP64 EOCD record. -/
structure EndOfCentralDirectory64Locator where
  directory_offset : Nat
  deriving Repr, DecidableEq

/-- `EndOfCentralDirectory64Locator::LENGTH` (20 bytes). -/
def EOCD64_LOCATOR_LENGTH : Nat := 20

/-- Modelled from the spec: the ZIP64 EOCD record (`parse` module, not among
the verified sources). `recLen` is the byte length of the record (`.len()`), used
when recording its parsed range. -/
structure EndOfCentralDirectory64Record where
  directory_offset : Nat
  directory_records : Nat
  recLen : Nat
  deriving Repr, DecidableEq

/-- Modelled from the spec: `EndOfCentralDirectory`, the "logical union of
the 32-bit EOCD and the optional ZIP64 EOCD record; exposes
`directory_offset`, `directory_records` (total entry count), `global_offset`
(implicit file prefix), and `comment`" (`parse` module, not among the
verified sources). -/
structure EndOfCentralDirectory where
  eocdr : Located EndOfCentralDirectoryRecord
  eocd64 : Option (Located EndOfCentralDirectory64Record)
  global_offset : Nat
  deriving Repr, DecidableEq

/-- Modelled from the spec: `EndOfCentralDirectory::new(size, eocdr, eocd64)`
builds the logical union (the spec describes no failure condition, so the
constructor is total; its `Except` shape mirrors the `?` at the call sites). -/
def EndOfCentralDirectory.new (_size : Nat)
    (eocdr : Located EndOfCentralDirectoryRecord)
    (eocd64 : Option (Located EndOfCentralDirectory64Record)) :
    Except Error EndOfCentralDirectory :=
  .ok { eocdr := eocdr, eocd64 := eocd64, global_offset := 0 }

/-- `EndOfCentralDirectory::directory_offset`: the ZIP64 record wins. -/
def EndOfCentralDirectory.directory_offset (e : EndOfCentralDirectory) : Nat :=
  match e.eocd64 with
  | some r => r.inner.directory_offset
  | none => e.eocdr.inner.directory_offset

/-- `EndOfCentralDirectory::directory_records` (total entry count): the ZIP64
record wins. -/
def EndOfCentralDirectory.directory_records (e : EndOfCentralDirectory) : Nat :=
  match e.eocd64 with
  | some r => r.inner.directory_records
  | none => e.eocdr.inner.directory_records

/-- A central directory file header, restricted to what the
encoding-detection pass reads: raw name and comment bytes and the
general-purpose flags word. -/
structure CentralDirectoryFileHeader where
  name : List Nat
  comment : List Nat
  flags : Nat
  deriving Repr, DecidableEq

/-- Modelled from the spec: `CentralDirectoryFileHeader::is_non_utf8`
(`parse` module, not among the verified sources): true when the header does
not have the UTF-8 general-purpose flag (bit 11) set. -/
def CentralDirectoryFileHeader.is_non_utf8
    (h : CentralDirectoryFileHeader) : Bool :=
  (h.flags / 2048) % 2 = 0

/-- Detected archive text encoding (`rc_zip::encoding::Encoding`). -/
inductive Encoding where
  | utf8
  | cp437
  | shiftJis
  deriving Repr, DecidableEq

/-- What the external character-detection engine (`chardetng`, an external
collaborator) can answer, as distinguished by the archive FSM: Shift-JIS,
UTF-8, or anything else. -/
inductive DetectorGuess where
  | shiftJis
  | utf8Guess
  | otherGuess
  deriving Repr, DecidableEq

/-- `ArchiveFsm` state (`fsm/archive.rs` lines 51-81). -/
inductive ArchiveState where
  | readEocd (haystack_size : Nat)
  | readEocd64Locator (eocdr : Located EndOfCentralDirectoryRecord)
  | readEocd64 (eocdr64_offset : Nat)
      (eocdr : Located EndOfCentralDirectoryRecord)
  | readCentralDirectory (eocd : EndOfCentralDirectory)
      (directory_headers : List CentralDirectoryFileHeader)
      (current_header_offset : Nat)
  deriving Repr, DecidableEq

/-- The `S::ReadEocd64Locator` arm of `ArchiveFsm::process` (`fsm/archive.rs`
lines 191-240), with the locator parser outcome supplied as `po`. A parse
failure (backtrack or cut) is not an error: the locator is legitimately
absent, and the FSM proceeds to the central directory with `eocd64 = None`.
Returns the next state and journal, or an error. -/
def readEocd64LocatorStep (size : Nat)
    (eocdr : Located EndOfCentralDirectoryRecord) (journal : ParsedRanges)
    (po : ParseResult EndOfCentralDirectory64Locator) :
    Except Error (ArchiveState × ParsedRanges) :=
  match po with
  | .incomplete => .ok (.readEocd64Locator eocdr, journal)
  | .backtrack | .cut =>
      match EndOfCentralDirectory.new size eocdr none with
      | .error e => .error e
      | .ok eocd =>
          .ok (.readCentralDirectory eocd [] eocd.directory_offset, journal)
  | .ok locator _ =>
      let journal1 := journal.insert_offset_length
        (eocdr.offset - EOCD64_LOCATOR_LENGTH) EOCD64_LOCATOR_LENGTH
        "zip64 end of central directory locator" none
      .ok (.readEocd64 locator.directory_offset eocdr, journal1)

/-- The `S::ReadEocd64` arm of `ArchiveFsm::process` (`fsm/archive.rs` lines
241-275), with the ZIP64 EOCD record parser outcome supplied as `po`. Here a
parse failure (backtrack or cut) is fatal: `Directory64EndRecordInvalid`. -/
def readEocd64Step (size : Nat) (eocdr64_offset : Nat)
    (eocdr : Located EndOfCentralDirectoryRecord) (journal : ParsedRanges)
    (po : ParseResult EndOfCentralDirectory64Record) :
    Except Error (ArchiveState × ParsedRanges) :=
  match po with
  | .incomplete => .ok (.readEocd64 eocdr64_offset eocdr, journal)
  | .backtrack | .cut => .error (.format .directory64EndRecordInvalid)
  | .ok eocdr64 _ =>
      let journal1 := journal.insert_offset_length eocdr64_offset
        eocdr64.recLen "zip64 end of central directory record" none
      match EndOfCentralDirectory.new size eocdr
          (some { offset := eocdr64_offset, inner := eocdr64 }) with
      | .error e => .error e
      | .ok eocd =>
          .ok (.readCentralDirectory eocd [] eocd.directory_offset, journal1)

/-! ### Encoding detection (`fsm/archive.rs` lines 346-397) -/

/-- The byte-feeding loop over the `(name, comment)` pairs of the non-UTF-8 headers:
pairs (`fsm/archive.rs` lines 350-374). The `feed` closure appends a whole
slice to the detector, then reports whether the running total is still below
`max_feed = 4096`; the loop breaks as soon as it reports false, skipping the
comment when the name already crossed the cap. Returns the bytes fed. -/
def feedLoop : List (List Nat × List Nat) → Nat → List Nat
  | [], _ => []
  | (name, comment) :: rest, total_fed =>
      let t1 := total_fed + name.length
      if t1 < 4096 then
        let t2 := t1 + comment.length
        if t2 < 4096 then name ++ comment ++ feedLoop rest t2
        else name ++ comment
      else name

/-- The `(name, comment)` pairs of the headers that do not have the UTF-8
flag set (`.iter().filter(|fh| fh.is_non_utf8())`). -/
def nonUtf8Pairs (headers : List CentralDirectoryFileHeader) :
    List (List Nat × List Nat) :=
  (headers.filter (·.is_non_utf8)).map (fun h => (h.name, h.comment))

/-- All bytes fed to the character-detection engine. -/
def detectorFedBytes (headers : List CentralDirectoryFileHeader) : List Nat :=
  feedLoop (nonUtf8Pairs headers) 0

/-- `had_suspicious_chars_for_cp437`: some fed byte lies in `0xB0..=0xDF`. -/
def hadSuspiciousChars (headers : List CentralDirectoryFileHeader) : Bool :=
  (detectorFedBytes headers).any (fun b => 0xB0 ≤ b ∧ b ≤ 0xDF)

/-- The encoding decision (`fsm/archive.rs` lines 376-397). `guess` is the
verdict of the external detector as a function of the fed bytes. -/
def detectEncoding (headers : List CentralDirectoryFileHeader)
    (guess : List Nat → DetectorGuess) : Encoding :=
  if (headers.filter (·.is_non_utf8)).isEmpty then .utf8
  else
    match guess (detectorFedBytes headers) with
    | .shiftJis =>
        if hadSuspiciousChars headers then .shiftJis else .cp437
    | .utf8Guess => .utf8
    | .otherGuess => .cp437

/-- The fully-built archive (`rc_zip::parse::Archive`), restricted to the
fields the verified code produces directly. The decoded `entries` and
`comment` go through external decoding crates (cp437/encoding_rs) and the
spec-external `as_entry`; they are not modelled. -/
structure ArchiveModel where
  size : Nat
  eocd : EndOfCentralDirectory
  directory_headers : List CentralDirectoryFileHeader
  encoding : Encoding
  parsed_ranges : ParsedRanges
  deriving Repr, DecidableEq

/-- The end-of-walk handler of `S::ReadCentralDirectory` (`fsm/archive.rs`
lines 320-417): when the next record fails to parse as a central directory
header, compare the number of parsed headers with the count the EOCD declares,
both truncated to 16 bits (`as u16`); on mismatch return
`InvalidCentralRecord`, otherwise detect the encoding and finish. -/
def finishCentralDirectory (size : Nat) (eocd : EndOfCentralDirectory)
    (directory_headers : List CentralDirectoryFileHeader)
    (journal : ParsedRanges) (guess : List Nat → DetectorGuess) :
    Except Error ArchiveModel :=
  let expected_records := directory_headers.length % 65536
  let actual_records := eocd.directory_records % 65536
  if expected_records ≠ actual_records then
    .error (.format (.invalidCentralRecord expected_records actual_records))
  else
    let encoding := detectEncoding directory_headers guess
    .ok { size := size, eocd := eocd, directory_headers := directory_headers,
          encoding := encoding, parsed_ranges := journal }

/-- One buffer pass of the central-directory walk (`fsm/archive.rs` lines
292-314), restricted to the `Ok` arm: for each successfully parsed header,
`valid_consumed` is set to the cumulative offset of the parser from the
start of the buffered data, the span
`current_header_offset..(directory_offset + valid_consumed)` is recorded as
a `central directory header` range, and then `current_header_offset` is
advanced by the (cumulative) `valid_consumed`. The input list carries each
header together with its own byte size; `decodeName` stands for
`dh.as_entry(Encoding::Utf8, ..).map(|e| e.name).ok()` (the `parse` module
and the decoders are not under src/). Returns the journal, the collected
headers, `valid_consumed`, and `current_header_offset`. -/
def readCentralDirectoryPass
    (directory_offset : Nat)
    (decodeName : CentralDirectoryFileHeader → Option String) :
    List (CentralDirectoryFileHeader × Nat) → Nat → Nat → ParsedRanges →
    List CentralDirectoryFileHeader →
    ParsedRanges × List CentralDirectoryFileHeader × Nat × Nat
  | [], valid_consumed, current_header_offset, journal, directory_headers =>
      (journal, directory_headers, valid_consumed, current_header_offset)
  | (dh, consumed) :: rest, valid_consumed, current_header_offset, journal,
      directory_headers =>
      let valid_consumed1 := valid_consumed + consumed
      let current_header_end := directory_offset + valid_consumed1
      let journal1 := journal.insert_range current_header_offset
        current_header_end "central directory header" (decodeName dh)
      readCentralDirectoryPass directory_offset decodeName rest
        valid_consumed1 (current_header_offset + valid_consumed1) journal1
        (directory_headers ++ [dh])

/-! ## Concrete fixtures shared by theorems and witnesses -/

/-- All optional codecs compiled in (the repository default build). -/
def allFeatures : Method → Bool := fun _ => true

/-- A plain Store entry without AE-x data. -/
def entryPlain : Entry :=
  { name := "a.txt"
    method := .store
    crc32 := 0
    compressed_size := 6
    uncompressed_size := 6
    header_offset := 0
    aex := none }

/-! ## Claim theorems -/

/-- **C9.** `EntryFsm::new` given `Some(buffer)` panics (assertion failure,
modelled as `none`) exactly when the capacity of the supplied buffer is below
`BUF_CAPACITY = 262144`; given `None` it allocates a buffer of exactly that
capacity; the result type has no error case, so the constructor never
returns an error value. -/
theorem C9_entryFsm_new_buffer_capacity :
    (∀ (e : Option Entry) (b : Buffer) (j : Option ParsedRanges),
       EntryFsm.new e (some b) j = none ↔ b.capacity < BUF_CAPACITY) ∧
    (∀ (e : Option Entry) (j : Option ParsedRanges),
       EntryFsm.new e none j =
         some { state := .readLocalHeader, entry := e, local_header := none,
                buffer := Buffer.with_capacity BUF_CAPACITY,
                parsed_ranges := j, aex_data := none }) ∧
    (Buffer.with_capacity BUF_CAPACITY).capacity = BUF_CAPACITY := by
  refine ⟨?_, ?_, rfl⟩
  · intro e b j
    by_cases hc : BUF_CAPACITY ≤ b.capacity <;>
      simp [EntryFsm.new, hc] <;> omega
  · intro e j
    rfl

/-- Witness for C9 at a concrete undersized buffer. -/
theorem C9_witness :
    EntryFsm.new none (some (Buffer.with_capacity 10)) none = none ∧
    (Buffer.with_capacity 10).capacity < BUF_CAPACITY := by
  refine ⟨?_, by decide⟩
  exact (C9_entryFsm_new_buffer_capacity.1 none (Buffer.with_capacity 10)
    none).mpr (by decide)

/-- **C10.** `AnyDecompressor::new` with method `Aex` panics when the entry
is absent or lacks AE-x extra data, and succeeds when AE-x data is present;
for every method other than `Aex` it never panics — it returns `Ok` or an
`Unsupported` error. -/
theorem C10_anyDecompressor_new_aex_panic :
    (∀ (f : Method → Bool), AnyDecompressor.new f .aex none = .panic) ∧
    (∀ (f : Method → Bool) (e : Entry), e.aex = none →
       AnyDecompressor.new f .aex (some e) = .panic) ∧
    (∀ (f : Method → Bool) (e : Entry) (a : ExtraAexField), e.aex = some a →
       AnyDecompressor.new f .aex (some e) = .ok (.aex (AexDec.new a))) ∧
    (∀ (f : Method → Bool) (m : Method) (ent : Option Entry), m ≠ .aex →
       (∃ d, AnyDecompressor.new f m ent = .ok d) ∨
       (∃ u, AnyDecompressor.new f m ent = .err (.unsupported u))) ∧
    (∀ (f : Method → Bool) (m : Method) (ent : Option Entry), m ≠ .aex →
       AnyDecompressor.new f m ent ≠ .panic) := by
  refine ⟨fun f => rfl, ?_, ?_, ?_, ?_⟩
  · intro f e he
    simp [AnyDecompressor.new, he]
  · intro f e a he
    simp [AnyDecompressor.new, he]
  · intro f m ent hm
    cases m with
    | store => exact Or.inl ⟨.store, rfl⟩
    | deflate =>
        by_cases h : f .deflate
        · exact Or.inl ⟨.deflate, by simp [AnyDecompressor.new, h]⟩
        · exact Or.inr ⟨.methodNotEnabled .deflate,
            by simp [AnyDecompressor.new, h]⟩
    | deflate64 =>
        by_cases h : f .deflate64
        · exact Or.inl ⟨.deflate64, by simp [AnyDecompressor.new, h]⟩
        · exact Or.inr ⟨.methodNotEnabled .deflate64,
            by simp [AnyDecompressor.new, h]⟩
    | bzip2 =>
        by_cases h : f .bzip2
        · exact Or.inl ⟨.bzip2, by simp [AnyDecompressor.new, h]⟩
        · exact Or.inr ⟨.methodNotEnabled .bzip2,
            by simp [AnyDecompressor.new, h]⟩
    | lzma =>
        by_cases h : f .lzma
        · exact Or.inl ⟨.lzma (ent.map (·.uncompressed_size)),
            by simp [AnyDecompressor.new, h]⟩
        · exact Or.inr ⟨.methodNotEnabled .lzma,
            by simp [AnyDecompressor.new, h]⟩
    | zstd =>
        by_cases h : f .zstd
        · exact Or.inl ⟨.zstd, by simp [AnyDecompressor.new, h]⟩
        · exact Or.inr ⟨.methodNotEnabled .zstd,
            by simp [AnyDecompressor.new, h]⟩
    | aex => exact absurd rfl hm
    | other c => exact Or.inr ⟨.methodNotSupported (.other c), rfl⟩
  · intro f m ent hm
    cases m with
    | store => simp [AnyDecompressor.new]
    | deflate => by_cases h : f .deflate <;> simp [AnyDecompressor.new, h]
    | deflate64 => by_cases h : f .deflate64 <;> simp [AnyDecompressor.new, h]
    | bzip2 => by_cases h : f .bzip2 <;> simp [AnyDecompressor.new, h]
    | lzma => by_cases h : f .lzma <;> simp [AnyDecompressor.new, h]
    | zstd => by_cases h : f .zstd <;> simp [AnyDecompressor.new, h]
    | aex => exact absurd rfl hm
    | other c => simp [AnyDecompressor.new]

/-- Witness for C10: the panic at a concrete AE-x-without-data entry, and the
no-panic guarantee at the concrete Store method. -/
theorem C10_witness :
    AnyDecompressor.new allFeatures .aex (some entryPlain) = .panic ∧
    AnyDecompressor.new allFeatures .store none ≠ .panic := by
  refine ⟨?_, ?_⟩
  · exact C10_anyDecompressor_new_aex_panic.2.1 allFeatures entryPlain rfl
  · exact C10_anyDecompressor_new_aex_panic.2.2.2.2 allFeatures .store none
      (by decide)

/-- **C2.** The `Validate` arm: `expected_crc` is the entry CRC if nonzero,
else the descriptor CRC if present, else 0; `WrongSize{entry size, metric
size}` is returned iff the sizes differ and `aex` is absent; otherwise
`WrongChecksum{expected, actual}` is returned iff `expected ≠ 0`, the CRCs
differ, and `aex` is absent; otherwise `Done` with the buffer, local header
and AE-x data; in particular an entry with `aex` set always reaches `Done`. -/
theorem C2_validate_size_and_checksum :
    ∀ (e : Entry) (m : EntryReadMetrics) (d : Option DataDescriptorRecord)
      (lh : Option LocalFileHeader) (buf : Buffer) (jr : Option ParsedRanges)
      (ax : Option AexData),
      (expectedCrc e d =
        (if e.crc32 ≠ 0 then e.crc32 else
          match d with
          | some dd => dd.crc32
          | none => 0)) ∧
      (processValidate ⟨.validate m d, some e, lh, buf, jr, ax⟩ =
          .err (.format (.wrongSize e.uncompressed_size m.uncompressed_size)) ↔
        e.uncompressed_size ≠ m.uncompressed_size ∧ e.aex = none) ∧
      (processValidate ⟨.validate m d, some e, lh, buf, jr, ax⟩ =
          .err (.format (.wrongChecksum (expectedCrc e d) m.crc32)) ↔
        e.uncompressed_size = m.uncompressed_size ∧ expectedCrc e d ≠ 0 ∧
          expectedCrc e d ≠ m.crc32 ∧ e.aex = none) ∧
      ((e.uncompressed_size = m.uncompressed_size ∨ e.aex ≠ none) →
       (expectedCrc e d = 0 ∨ expectedCrc e d = m.crc32 ∨ e.aex ≠ none) →
        processValidate ⟨.validate m d, some e, lh, buf, jr, ax⟩ =
          .done buf lh ax jr) ∧
      (e.aex ≠ none →
        processValidate ⟨.validate m d, some e, lh, buf, jr, ax⟩ =
          .done buf lh ax jr) := by
  intro e m d lh buf jr ax
  refine ⟨rfl, ?_, ?_, ?_, ?_⟩ <;>
    simp only [processValidate] <;> split_ifs with h1 h2 <;> simp_all <;> tauto


/-- **C7.** The two ZIP64 probe states are asymmetric: in
`ReadEocd64Locator`, a parse failure (backtrack or cut) is not an error —
the FSM proceeds to `ReadCentralDirectory` with `eocd64 = None` — and an
incomplete parse continues in the same state; in `ReadEocd64`, a parse
failure is fatal (`Directory64EndRecordInvalid`) and an incomplete parse
continues in the same state. -/
theorem C7_zip64_probe_asymmetry :
    (∀ (size : Nat) (eocdr : Located EndOfCentralDirectoryRecord)
       (j : ParsedRanges),
       readEocd64LocatorStep size eocdr j .incomplete =
         .ok (.readEocd64Locator eocdr, j)) ∧
    (∀ (size : Nat) (eocdr : Located EndOfCentralDirectoryRecord)
       (j : ParsedRanges),
       readEocd64LocatorStep size eocdr j .backtrack =
         .ok (.readCentralDirectory
           { eocdr := eocdr, eocd64 := none, global_offset := 0 } []
           eocdr.inner.directory_offset, j)) ∧
    (∀ (size : Nat) (eocdr : Located EndOfCentralDirectoryRecord)
       (j : ParsedRanges),
       readEocd64LocatorStep size eocdr j .cut =
         .ok (.readCentralDirectory
           { eocdr := eocdr, eocd64 := none, global_offset := 0 } []
           eocdr.inner.directory_offset, j)) ∧
    (∀ (size off : Nat) (eocdr : Located EndOfCentralDirectoryRecord)
       (j : ParsedRanges),
       readEocd64Step size off eocdr j .incomplete =
         .ok (.readEocd64 off eocdr, j)) ∧
    (∀ (size off : Nat) (eocdr : Located EndOfCentralDirectoryRecord)
       (j : ParsedRanges),
       readEocd64Step size off eocdr j .backtrack =
         .error (.format .directory64EndRecordInvalid)) ∧
    (∀ (size off : Nat) (eocdr : Located EndOfCentralDirectoryRecord)
       (j : ParsedRanges),
       readEocd64Step size off eocdr j .cut =
         .error (.format .directory64EndRecordInvalid)) :=
  ⟨fun _ _ _ => rfl, fun _ _ _ => rfl, fun _ _ _ => rfl,
   fun _ _ _ _ => rfl, fun _ _ _ _ => rfl, fun _ _ _ _ => rfl⟩

/-- **C4.** The end-of-walk check returns `InvalidCentralRecord{expected,
actual}` iff the number of parsed headers and the EOCD-declared record count
differ after truncation to 16 bits (`% 65536`), with `expected`/`actual`
being exactly those truncations; when they agree modulo 65536 the walk
finishes without this error. -/
theorem C4_invalid_central_record_mod_65536 :
    (∀ (size : Nat) (eocd : EndOfCentralDirectory)
       (headers : List CentralDirectoryFileHeader) (journal : ParsedRanges)
       (guess : List Nat → DetectorGuess) (x y : Nat),
       finishCentralDirectory size eocd headers journal guess =
           .error (.format (.invalidCentralRecord x y)) ↔
         headers.length % 65536 ≠ eocd.directory_records % 65536 ∧
           x = headers.length % 65536 ∧ y = eocd.directory_records % 65536) ∧
    (∀ (size : Nat) (eocd : EndOfCentralDirectory)
       (headers : List CentralDirectoryFileHeader) (journal : ParsedRanges)
       (guess : List Nat → DetectorGuess),
       headers.length % 65536 = eocd.directory_records % 65536 →
       finishCentralDirectory size eocd headers journal guess =
         .ok { size := size, eocd := eocd, directory_headers := headers,
               encoding := detectEncoding headers guess,
               parsed_ranges := journal }) := by
  constructor
  · intro size eocd headers journal guess x y
    by_cases h : headers.length % 65536 = eocd.directory_records % 65536 <;>
      simp [finishCentralDirectory, h] <;> tauto
  · intro size eocd headers journal guess h
    simp [finishCentralDirectory, h]

/-- A central directory header with the UTF-8 flag (bit 11) set. -/
def utf8Header : CentralDirectoryFileHeader :=
  { name := [97], comment := [], flags := 2048 }

/-- An EOCD union declaring 65535 directory records, no ZIP64 record. -/
def eocd65535 : EndOfCentralDirectory :=
  { eocdr := { offset := 978,
               inner := { directory_offset := 100, directory_records := 65535 } }
    eocd64 := none
    global_offset := 0 }

/-- Witness for C4: a non-ZIP64 archive with exactly 65535 parsed headers and
a declared count of 65535 finishes without `InvalidCentralRecord`. -/
theorem C4_witness :
    (List.replicate 65535 utf8Header).length % 65536 =
      eocd65535.directory_records % 65536 ∧
    finishCentralDirectory 4000000 eocd65535 (List.replicate 65535 utf8Header)
        [] (fun _ => .otherGuess) =
      .ok { size := 4000000, eocd := eocd65535,
            directory_headers := List.replicate 65535 utf8Header,
            encoding := detectEncoding (List.replicate 65535 utf8Header)
              (fun _ => .otherGuess),
            parsed_ranges := [] } := by
  have h : (List.replicate 65535 utf8Header).length % 65536 =
      eocd65535.directory_records % 65536 := by
    simp only [List.length_replicate]
    rfl
  exact ⟨h, C4_invalid_central_record_mod_65536.2 4000000 eocd65535
    (List.replicate 65535 utf8Header) [] (fun _ => .otherGuess) h⟩

/-- Concatenation of all `(name, comment)` pairs: what the detector would see
with no cap at all. -/
def joinPairs (l : List (List Nat × List Nat)) : List Nat :=
  (l.map (fun p => p.1 ++ p.2)).join

/-- The feeding loop either feeds every byte of every non-UTF-8 header, or
it feeds at least `4096 - total` bytes before stopping (the slice that
crosses the cap is fed in full). -/
theorem feedLoop_all_or_cap (l : List (List Nat × List Nat)) :
    ∀ t : Nat, feedLoop l t = joinPairs l ∨ 4096 ≤ t + (feedLoop l t).length := by
  induction l with
  | nil => intro t; left; rfl
  | cons p rest ih =>
      intro t
      obtain ⟨name, comment⟩ := p
      by_cases h1 : t + name.length < 4096
      · by_cases h2 : t + name.length + comment.length < 4096
        · rcases ih (t + name.length + comment.length) with h | h
          · left
            simp only [feedLoop, joinPairs, List.map_cons, List.join,
              if_pos h1, if_pos h2]
            simp only [joinPairs, List.map] at h
            simp [h, List.append_assoc]
          · right
            simp only [feedLoop, if_pos h1, if_pos h2]
            simp only [List.length_append]
            omega
        · right
          simp only [feedLoop, if_pos h1, if_neg h2]
          simp only [List.length_append]
          omega
      · right
        simp only [feedLoop, if_neg h1]
        omega

/-- **C6 (amended).** Encoding detection: if every header has the UTF-8 flag,
the result is `Utf8`; otherwise the result is `ShiftJis` when the detector
guesses Shift-JIS and a fed byte lies in `0xB0..=0xDF`, `Cp437` when it
guesses Shift-JIS without such a byte, `Utf8` when it guesses UTF-8, and
`Cp437` otherwise. The fed bytes are the names and comments of the
non-UTF-8 headers, but the 4096-byte cap is soft: either everything is fed,
or at least 4096 bytes are (a crossing slice is fed in full). -/
theorem C6_encoding_detection :
    (∀ (headers : List CentralDirectoryFileHeader)
       (guess : List Nat → DetectorGuess),
       (∀ h ∈ headers, h.is_non_utf8 = false) →
       detectEncoding headers guess = .utf8) ∧
    (∀ (headers : List CentralDirectoryFileHeader)
       (guess : List Nat → DetectorGuess),
       (∃ h ∈ headers, h.is_non_utf8 = true) →
       detectEncoding headers guess =
         (match guess (detectorFedBytes headers) with
          | .shiftJis =>
              if hadSuspiciousChars headers then Encoding.shiftJis
              else Encoding.cp437
          | .utf8Guess => Encoding.utf8
          | .otherGuess => Encoding.cp437)) ∧
    (∀ headers : List CentralDirectoryFileHeader,
       detectorFedBytes headers = joinPairs (nonUtf8Pairs headers) ∨
       4096 ≤ (detectorFedBytes headers).length) ∧
    (∀ (headers : List CentralDirectoryFileHeader),
       hadSuspiciousChars headers = true ↔
       ∃ b ∈ detectorFedBytes headers, 0xB0 ≤ b ∧ b ≤ 0xDF) := by
  refine ⟨?_, ?_, ?_, ?_⟩
  · intro headers guess hall
    have : headers.filter (·.is_non_utf8) = [] := by
      simp only [List.filter_eq_nil]
      intro a ha
      simp [hall a ha]
    simp [detectEncoding, this]
  · intro headers guess ⟨h, hh, hnon⟩
    have : ¬ (headers.filter (·.is_non_utf8)).isEmpty := by
      simp only [List.isEmpty_iff, List.filter_eq_nil]
      intro hc
      exact absurd hnon (by simp [hc h hh])
    simp only [detectEncoding, this, if_neg]
    simp [this]
  · intro headers
    have := feedLoop_all_or_cap (nonUtf8Pairs headers) 0
    simpa [detectorFedBytes] using this
  · intro headers
    simp [hadSuspiciousChars, List.any_eq_true]

/-- A non-UTF-8 central directory header whose name alone is 4097 bytes. -/
def longHeader : CentralDirectoryFileHeader :=
  { name := List.replicate 4097 66, comment := [], flags := 0 }

/-- Counterexample for C6 as stated: the detector feed is *not* capped at
4096 total bytes — a single 4097-byte name is fed in full (4097 bytes). -/
theorem C6_counterexample :
    (detectorFedBytes [longHeader]).length = 4097 ∧
    ¬ (detectorFedBytes [longHeader]).length ≤ 4096 := by
  have hgen : ∀ nm : List Nat, nm.length = 4097 →
      detectorFedBytes [{ name := nm, comment := [], flags := 0 }] = nm := by
    intro nm hlen
    have hp : nonUtf8Pairs [{ name := nm, comment := [], flags := 0 }] =
        [(nm, [])] := by
      simp [nonUtf8Pairs, CentralDirectoryFileHeader.is_non_utf8]
    rw [detectorFedBytes, hp]
    simp only [feedLoop]
    rw [hlen]
    norm_num
  have hf : detectorFedBytes [longHeader] = List.replicate 4097 66 := by
    show detectorFedBytes
        [{ name := List.replicate 4097 66, comment := [], flags := 0 }] =
      List.replicate 4097 66
    exact hgen _ (by simp only [List.length_replicate])
  refine ⟨?_, ?_⟩
  · rw [hf]
    simp only [List.length_replicate]
  · rw [hf]
    simp only [List.length_replicate]
    omega

/-- Salt size per AE-x mode byte: 8, 12, 16 for modes 1, 2, 3. -/
def aexSaltSize (mode : Nat) : Option Nat :=
  if mode = 1 then some 8
  else if mode = 2 then some 12
  else if mode = 3 then some 16
  else none

theorem aexSaltSize_cases {mode s : Nat} (h : aexSaltSize mode = some s) :
    (mode = 1 ∧ s = 8) ∨ (mode = 2 ∧ s = 12) ∨ (mode = 3 ∧ s = 16) := by
  unfold aexSaltSize at h
  split_ifs at h <;> simp_all

/-- `AexDec::decompress` factored through the mode-to-salt-size table. -/
theorem AexDec.decompress_eq (d : AexDec) (inb : List Nat) (cap : Nat)
    (hmi : HasMoreInput) :
    d.decompress inb cap hmi =
      (match aexSaltSize d.aex.mode with
       | none => .err (.format .invalidExtraField)
       | some ss => AexDec.decompressWithSalt d inb cap hmi ss) := by
  unfold AexDec.decompress
  match hm : d.aex.mode with
  | 0 => rfl
  | 1 => rfl
  | 2 => rfl
  | 3 => rfl
  | (n + 4) =>
      simp only [aexSaltSize]
      rw [if_neg (by omega), if_neg (by omega), if_neg (by omega)]

/-- **C5 (amended).** The AE-x decompressor: salt size 8/12/16 for modes
1/2/3, any other mode yields `InvalidExtraField`. A call with fewer than
`salt_size + 2` input bytes reports them all read, records nothing and
writes nothing — even a final call, so a short final chunk leaves the
authentication code unrecorded. The first call with at least
`salt_size + 2` bytes and more input to come records the salt and the
2-byte verifier. On a final call (`has_more_input = No`): with the salt
already recorded, the last 10 input bytes are recorded as the
authentication code (the input then has at least `salt_size + 2 ≥ 10`
bytes, so no panic is possible); on a first-and-final call, salt, verifier
and last-10-byte authentication code are all recorded when the input has at
least `salt_size + 12` bytes, and the code *panics* (slice-split underflow
at `rest.split_at(rest.len() - 10)`) when the input length lies in
`[salt_size + 2, salt_size + 12)`. In each successful non-short call,
`min(in.len, out.len)` bytes — the split-off salt/verifier/code bytes
included — are copied verbatim from the start of the input to the output,
with `bytes_read = bytes_written = min(in.len, out.len)`, which is how the
accounting of the driving FSM advances to `compressed_size`. -/
theorem C5_aex_decompressor :
    (∀ (d : AexDec) (inb : List Nat) (cap : Nat) (hmi : HasMoreInput),
       aexSaltSize d.aex.mode = none →
       d.decompress inb cap hmi = .err (.format .invalidExtraField)) ∧
    (∀ (d : AexDec) (inb : List Nat) (cap : Nat) (hmi : HasMoreInput)
       (salt_size : Nat),
       aexSaltSize d.aex.mode = some salt_size →
       inb.length < salt_size + 2 →
       d.decompress inb cap hmi =
         .ok d { bytes_read := inb.length, bytes_written := 0 } []) ∧
    (∀ (d : AexDec) (inb : List Nat) (cap : Nat) (salt_size : Nat),
       aexSaltSize d.aex.mode = some salt_size →
       d.salt_value = none → salt_size + 2 ≤ inb.length →
       d.decompress inb cap .yes =
         .ok { d with
                 salt_value := some (inb.take salt_size)
                 password_verification_value :=
                   some ((inb.drop salt_size).take 2) }
           { bytes_read := min inb.length cap,
             bytes_written := min inb.length cap }
           (inb.take (min inb.length cap))) ∧
    (∀ (d : AexDec) (inb : List Nat) (cap : Nat) (salt_size : Nat)
       (s : List Nat),
       aexSaltSize d.aex.mode = some salt_size →
       d.salt_value = some s → salt_size + 2 ≤ inb.length →
       d.decompress inb cap .no =
         .ok { d with
                 authentication_code := some (inb.drop (inb.length - 10)) }
           { bytes_read := min inb.length cap,
             bytes_written := min inb.length cap }
           (inb.take (min inb.length cap))) ∧
    (∀ (d : AexDec) (inb : List Nat) (cap : Nat) (salt_size : Nat),
       aexSaltSize d.aex.mode = some salt_size →
       d.salt_value = none → salt_size + 12 ≤ inb.length →
       d.decompress inb cap .no =
         .ok { d with
                 salt_value := some (inb.take salt_size)
                 password_verification_value :=
                   some ((inb.drop salt_size).take 2)
                 authentication_code := some (inb.drop (inb.length - 10)) }
           { bytes_read := min inb.length cap,
             bytes_written := min inb.length cap }
           (inb.take (min inb.length cap))) ∧
    (∀ (d : AexDec) (inb : List Nat) (cap : Nat) (salt_size : Nat),
       aexSaltSize d.aex.mode = some salt_size →
       d.salt_value = none → salt_size + 2 ≤ inb.length →
       inb.length < salt_size + 12 →
       d.decompress inb cap .no = .panic) ∧
    (∀ (d : AexDec) (s p a : List Nat),
       d.salt_value = some s → d.password_verification_value = some p →
       d.authentication_code = some a →
       d.take_aex_data = some ⟨s, p, a⟩) := by
  refine ⟨?_, ?_, ?_, ?_, ?_, ?_, ?_⟩
  · intro d inb cap hmi h
    rw [AexDec.decompress_eq, h]
  · intro d inb cap hmi salt_size h hlen
    rw [AexDec.decompress_eq, h]
    unfold AexDec.decompressWithSalt
    dsimp only
    rw [if_pos hlen]
  · intro d inb cap salt_size h hsalt hlen
    rw [AexDec.decompress_eq, h]
    unfold AexDec.decompressWithSalt
    dsimp only
    rw [if_neg (by omega)]
    simp [hsalt]
  · intro d inb cap salt_size s h hsalt hlen
    have hss : 8 ≤ salt_size := by
      rcases aexSaltSize_cases h with ⟨_, rfl⟩ | ⟨_, rfl⟩ | ⟨_, rfl⟩ <;> omega
    rw [AexDec.decompress_eq, h]
    unfold AexDec.decompressWithSalt
    dsimp only
    rw [if_neg (by omega)]
    simp only [hsalt, Option.isNone_some, Bool.false_eq_true, if_false]
    rw [if_neg (by simp; omega)]
  · intro d inb cap salt_size h hsalt hlen
    rw [AexDec.decompress_eq, h]
    unfold AexDec.decompressWithSalt
    dsimp only
    rw [if_neg (by omega)]
    simp only [hsalt, Option.isNone_none, if_true]
    rw [if_neg (by simp only [List.length_drop]; omega)]
    have hidx : salt_size + 2 + (inb.length - (salt_size + 2) - 10) =
        inb.length - 10 := by omega
    simp only [List.length_drop, List.drop_drop, hidx]
  · intro d inb cap salt_size h hsalt hlen1 hlen2
    rw [AexDec.decompress_eq, h]
    unfold AexDec.decompressWithSalt
    dsimp only
    rw [if_neg (by omega)]
    simp only [hsalt, Option.isNone_none, if_true]
    rw [if_pos (by simp only [List.length_drop]; omega)]
  · intro d s p a h1 h2 h3
    simp [AexDec.take_aex_data, h1, h2, h3]

/-- Counterexample for C5 as stated. First conjunct: on the first call of a
mode-1 stream whose input is exactly salt + verifier (10 bytes), the claim
says the remaining bytes (none) are passed through, so nothing should be
written; the code copies all 10 input bytes (salt and verifier included) to
the output and reports 10 bytes written. Third conjunct: on a final call
(`has_more_input = No`) whose input is shorter than `salt_size + 2`, the
claim says the trailing 10-byte authentication code is recorded; the code
takes the early-return path and records nothing (the authentication code
stays `none`). -/
theorem C5_counterexample :
    AexDec.decompress (AexDec.new ⟨1⟩) [0, 1, 2, 3, 4, 5, 6, 7, 8, 9] 10 .yes =
      .ok ⟨⟨1⟩, some [0, 1, 2, 3, 4, 5, 6, 7], some [8, 9], none⟩
        { bytes_read := 10, bytes_written := 10 }
        [0, 1, 2, 3, 4, 5, 6, 7, 8, 9] ∧
    ([0, 1, 2, 3, 4, 5, 6, 7, 8, 9] : List Nat).drop 10 = [] ∧
    AexDec.decompress ⟨⟨1⟩, some [0, 1, 2, 3, 4, 5, 6, 7], some [8, 9], none⟩
        [10, 11, 12] 10 .no =
      .ok ⟨⟨1⟩, some [0, 1, 2, 3, 4, 5, 6, 7], some [8, 9], none⟩
        { bytes_read := 3, bytes_written := 0 } [] := by
  decide

/-- Witness for C5 (amended) at concrete inputs: an invalid mode errors; a
short call reads everything and records nothing; a first long call of a
mode-3 stream records the 16-byte salt and 2-byte verifier; a final long
call records the last 10 bytes; a first-and-final call with the whole
30-byte mode-3 stream records all three blobs; a first-and-final mode-1
call with 15 bytes panics; fully captured state yields the `AexData`
triple (salt 16, verifier 2, authentication code 10 bytes for mode 3). -/
theorem C5_witness :
    AexDec.decompress ⟨⟨7⟩, none, none, none⟩ [0, 1, 2] 4 .yes =
      .err (.format .invalidExtraField) ∧
    AexDec.decompress (AexDec.new ⟨1⟩) [9, 9] 4 .no =
      .ok (AexDec.new ⟨1⟩) { bytes_read := 2, bytes_written := 0 } [] ∧
    AexDec.decompress (AexDec.new ⟨3⟩) (List.range 30) 64 .yes =
      .ok { AexDec.new ⟨3⟩ with
              salt_value := some ((List.range 30).take 16)
              password_verification_value :=
                some (((List.range 30).drop 16).take 2) }
        { bytes_read := min (List.range 30).length 64,
          bytes_written := min (List.range 30).length 64 }
        ((List.range 30).take (min (List.range 30).length 64)) ∧
    AexDec.decompress ⟨⟨3⟩, some (List.range 16), some [16, 17], none⟩
        (List.range 30) 64 .no =
      .ok { (⟨⟨3⟩, some (List.range 16), some [16, 17], none⟩ : AexDec) with
              authentication_code :=
                some ((List.range 30).drop ((List.range 30).length - 10)) }
        { bytes_read := min (List.range 30).length 64,
          bytes_written := min (List.range 30).length 64 }
        ((List.range 30).take (min (List.range 30).length 64)) ∧
    AexDec.decompress (AexDec.new ⟨3⟩) (List.range 30) 64 .no =
      .ok { AexDec.new ⟨3⟩ with
              salt_value := some ((List.range 30).take 16)
              password_verification_value :=
                some (((List.range 30).drop 16).take 2)
              authentication_code :=
                some ((List.range 30).drop ((List.range 30).length - 10)) }
        { bytes_read := min (List.range 30).length 64,
          bytes_written := min (List.range 30).length 64 }
        ((List.range 30).take (min (List.range 30).length 64)) ∧
    AexDec.decompress (AexDec.new ⟨1⟩) (List.range 15) 64 .no = .panic ∧
    AexDec.take_aex_data
        ⟨⟨3⟩, some (List.range 16), some [16, 17], some (List.range 10)⟩ =
      some ⟨List.range 16, [16, 17], List.range 10⟩ := by
  refine ⟨?_, ?_, ?_, ?_, ?_, ?_, ?_⟩
  · exact C5_aex_decompressor.1 ⟨⟨7⟩, none, none, none⟩ [0, 1, 2] 4 .yes rfl
  · exact C5_aex_decompressor.2.1 (AexDec.new ⟨1⟩) [9, 9] 4 .no 8 rfl
      (by decide)
  · exact C5_aex_decompressor.2.2.1 (AexDec.new ⟨3⟩) (List.range 30) 64 16
      rfl rfl (by decide)
  · exact C5_aex_decompressor.2.2.2.1
      ⟨⟨3⟩, some (List.range 16), some [16, 17], none⟩ (List.range 30) 64 16
      (List.range 16) rfl rfl (by decide)
  · exact C5_aex_decompressor.2.2.2.2.1 (AexDec.new ⟨3⟩) (List.range 30) 64
      16 rfl rfl (by decide)
  · exact C5_aex_decompressor.2.2.2.2.2.1 (AexDec.new ⟨1⟩) (List.range 15)
      64 8 rfl rfl (by decide) (by decide)
  · exact C5_aex_decompressor.2.2.2.2.2.2
      ⟨⟨3⟩, some (List.range 16), some [16, 17], some (List.range 10)⟩
      (List.range 16) [16, 17] (List.range 10) rfl rfl rfl

/-- An entry using an unsupported (unrecognized) compression method. -/
def entryUnsup : Entry :=
  { name := "x"
    method := .other 99
    crc32 := 0
    compressed_size := 5
    uncompressed_size := 5
    header_offset := 0
    aex := none }

/-- A local file header declaring the same unsupported method. -/
def lhUnsup : LocalFileHeader :=
  { method := .other 99
    flags := 0
    crc32 := 0
    compressed_size := 5
    uncompressed_size := 5
    name := "x" }

/-- The machine `EntryFsm::new(Some(entryUnsup), None, None)` builds. -/
def fsmUnsup : EntryFsm :=
  { state := .readLocalHeader
    entry := some entryUnsup
    local_header := none
    buffer := Buffer.with_capacity BUF_CAPACITY
    parsed_ranges := none
    aex_data := none }

/-- Counterexample for C8 as stated: for an entry with an unsupported
method, `EntryFsm::new` succeeds — it cannot return an error — and
`MethodNotSupported` is raised only later, by the `process` call that
parses the local header. -/
theorem C8_counterexample :
    EntryFsm.new (some entryUnsup) none none = some fsmUnsup ∧
    fsmUnsup.process allFeatures (.ok lhUnsup 30) .incomplete 1024 =
      .err (.unsupported (.methodNotSupported (.other 99))) := by
  constructor
  · rfl
  · rfl

/-! ### Shape lemmas about the decompressors and the validation tail -/

/-- `AexDec::decompressWithSalt` either succeeds reading at most the whole
input, or panics; it never returns an error. -/
theorem AexDec.decompressWithSalt_shapes (d : AexDec) (inb : List Nat)
    (cap : Nat) (hmi : HasMoreInput) (ss : Nat) :
    (∃ d1 oc w, AexDec.decompressWithSalt d inb cap hmi ss = .ok d1 oc w ∧
       oc.bytes_read ≤ inb.length) ∨
    AexDec.decompressWithSalt d inb cap hmi ss = .panic := by
  unfold AexDec.decompressWithSalt
  by_cases h1 : inb.length < ss + 2
  · rw [if_pos h1]
    exact Or.inl ⟨_, _, _, rfl, Nat.le_refl _⟩
  · rw [if_neg h1]
    cases hmi with
    | yes =>
        dsimp only
        exact Or.inl ⟨_, _, _, rfl, Nat.min_le_left _ _⟩
    | no =>
        dsimp only
        cases hs : d.salt_value with
        | none =>
            simp only [hs, Option.isNone_none, if_true]
            split
            · exact Or.inr rfl
            · exact Or.inl ⟨_, _, _, rfl, Nat.min_le_left _ _⟩
        | some s =>
            simp only [hs, Option.isNone_some, Bool.false_eq_true, if_false]
            split
            · exact Or.inr rfl
            · exact Or.inl ⟨_, _, _, rfl, Nat.min_le_left _ _⟩

/-- `AexDec::decompress`, when it succeeds, reads at most the whole input. -/
theorem AexDec.decompress_ok_le {d : AexDec} {inb : List Nat} {cap : Nat}
    {hmi : HasMoreInput} {d1 : AexDec} {oc : DecompressOutcome}
    {w : List Nat} (h : d.decompress inb cap hmi = .ok d1 oc w) :
    oc.bytes_read ≤ inb.length := by
  rw [AexDec.decompress_eq] at h
  cases hss : aexSaltSize d.aex.mode with
  | none => rw [hss] at h; cases h
  | some ss =>
      rw [hss] at h
      dsimp only at h
      rcases AexDec.decompressWithSalt_shapes d inb cap hmi ss with
        ⟨d1', oc', w', he, hle⟩ | hp
      · rw [he] at h
        injection h with h1 h2 h3
        subst h2
        exact hle
      · rw [hp] at h
        cases h

/-- `AexDec::decompress` fails only with the `InvalidExtraField` format
error. -/
theorem AexDec.decompress_err_eq {d : AexDec} {inb : List Nat} {cap : Nat}
    {hmi : HasMoreInput} {e : Error}
    (h : d.decompress inb cap hmi = .err e) :
    e = .format .invalidExtraField := by
  rw [AexDec.decompress_eq] at h
  cases hss : aexSaltSize d.aex.mode with
  | none =>
      rw [hss] at h
      dsimp only at h
      injection h with h1
      exact h1.symm
  | some ss =>
      rw [hss] at h
      dsimp only at h
      rcases AexDec.decompressWithSalt_shapes d inb cap hmi ss with
        ⟨d1', oc', w', he, _⟩ | hp
      · rw [he] at h; cases h
      · rw [hp] at h; cases h

/-- `AnyDecompressor::decompress` either succeeds reading at most the whole
input, or panics, or fails with an error that is never `Unsupported`. -/
theorem AnyDecompressor.decompress_shapes (d : AnyDecompressor)
    (inb : List Nat) (cap : Nat) (hmi : HasMoreInput) :
    (∃ d1 oc w, d.decompress inb cap hmi = .ok d1 oc w ∧
       oc.bytes_read ≤ inb.length) ∨
    d.decompress inb cap hmi = .panic ∨
    (∃ e, d.decompress inb cap hmi = .err e ∧
       ∀ u, e ≠ .unsupported u) := by
  cases d with
  | store =>
      refine Or.inl ⟨_, _, _, rfl, ?_⟩
      exact Nat.min_le_left _ _
  | aex dec =>
      cases hres : dec.decompress inb cap hmi with
      | ok d1 oc w =>
          have he : (AnyDecompressor.aex dec).decompress inb cap hmi =
              .ok (.aex d1) oc w := by
            simp [AnyDecompressor.decompress, hres]
          exact Or.inl ⟨_, _, _, he, AexDec.decompress_ok_le hres⟩
      | err e =>
          have he : (AnyDecompressor.aex dec).decompress inb cap hmi =
              .err e := by
            simp [AnyDecompressor.decompress, hres]
          refine Or.inr (Or.inr ⟨e, he, ?_⟩)
          intro u
          rw [AexDec.decompress_err_eq hres]
          simp
      | panic =>
          have he : (AnyDecompressor.aex dec).decompress inb cap hmi =
              .panic := by
            simp [AnyDecompressor.decompress, hres]
          exact Or.inr (Or.inl he)
  | deflate =>
      exact Or.inr (Or.inr ⟨.io "external codec not modelled", rfl,
        fun u => by simp⟩)
  | deflate64 =>
      exact Or.inr (Or.inr ⟨.io "external codec not modelled", rfl,
        fun u => by simp⟩)
  | bzip2 =>
      exact Or.inr (Or.inr ⟨.io "external codec not modelled", rfl,
        fun u => by simp⟩)
  | lzma sz =>
      exact Or.inr (Or.inr ⟨.io "external codec not modelled", rfl,
        fun u => by simp⟩)
  | zstd =>
      exact Or.inr (Or.inr ⟨.io "external codec not modelled", rfl,
        fun u => by simp⟩)

/-- When `AnyDecompressor::decompress` succeeds, it reads at most the whole
input slice it was given. -/
theorem AnyDecompressor.decompress_ok_bytes_le {d : AnyDecompressor}
    {inb : List Nat} {cap : Nat} {hmi : HasMoreInput} {d1 : AnyDecompressor}
    {oc : DecompressOutcome} {w : List Nat}
    (h : d.decompress inb cap hmi = .ok d1 oc w) :
    oc.bytes_read ≤ inb.length := by
  rcases AnyDecompressor.decompress_shapes d inb cap hmi with
    ⟨d1', oc', w', he, hle⟩ | hp | ⟨e, he, _⟩
  · rw [he] at h
    injection h with h1 h2 h3
    subst h2
    exact hle
  · rw [hp] at h; cases h
  · rw [he] at h; cases h

/-- The `Validate` arm never raises an `Unsupported` error. -/
theorem processValidate_not_unsupported (fsm : EntryFsm)
    (u : UnsupportedError) :
    processValidate fsm ≠ .err (.unsupported u) := by
  intro hc
  unfold processValidate at hc
  split at hc
  · split at hc
    · cases hc
    · split at hc
      · simp at hc
      · dsimp only at hc
        split at hc
        · simp at hc
        · simp at hc
  · cases hc

/-- The `ReadDataDescriptor` arm never raises an `Unsupported` error. -/
theorem processReadDataDescriptor_not_unsupported (fsm : EntryFsm)
    (po : ParseResult DataDescriptorRecord) (u : UnsupportedError) :
    processReadDataDescriptor fsm po ≠ .err (.unsupported u) := by
  intro hc
  unfold processReadDataDescriptor at hc
  split at hc
  · split at hc
    · simp at hc
    · simp at hc
    · simp at hc
    · split at hc
      · cases hc
      · exact processValidate_not_unsupported _ u hc
  · cases hc


/-- An error returned by `AnyDecompressor::decompress` is never
`Unsupported`. -/
theorem AnyDecompressor.decompress_err_not_unsupported {d : AnyDecompressor}
    {inb : List Nat} {cap : Nat} {hmi : HasMoreInput} {e : Error}
    (h : d.decompress inb cap hmi = .err e) (u : UnsupportedError) :
    e ≠ .unsupported u := by
  rcases AnyDecompressor.decompress_shapes d inb cap hmi with
    ⟨d1, oc, w, he, _⟩ | hp | ⟨e', he, hne⟩
  · rw [he] at h; cases h
  · rw [hp] at h; cases h
  · rw [he] at h
    injection h with h1
    subst h1
    exact hne u

/-- The data phase (`ReadData` arm) never raises an `Unsupported` error:
method dispatch happened at local-header time, before any payload byte. -/
theorem processReadData_not_unsupported (fsm : EntryFsm)
    (ddPo : ParseResult DataDescriptorRecord) (out_cap : Nat)
    (u : UnsupportedError) :
    processReadData fsm ddPo out_cap ≠ .err (.unsupported u) := by
  intro hc
  unfold processReadData at hc
  split at hc
  · split at hc
    · cases hc
    · dsimp only at hc
      split at hc
      · cases hc
      · split at hc
        · next e heq =>
            injection hc with h1
            exact absurd h1
              (AnyDecompressor.decompress_err_not_unsupported heq u)
        · cases hc
        · split at hc
          · split at hc
            · exact processReadDataDescriptor_not_unsupported _ _ u hc
            · exact processValidate_not_unsupported _ u hc
          · split at hc
            · simp at hc
            · cases hc
  · cases hc

/-- No optional codec compiled in. -/
def noFeatures : Method → Bool := fun _ => false

/-- A local file header declaring Deflate. -/
def lhDeflate : LocalFileHeader :=
  { method := .deflate
    flags := 0
    crc32 := 0
    compressed_size := 5
    uncompressed_size := 5
    name := "x" }

/-- **C8 (amended).** `EntryFsm::new` never returns an error (with no
caller-supplied buffer it cannot even panic); `MethodNotSupported` (resp.
`MethodNotEnabled` for a compiled-out codec) is raised by the `process` call
that parses the local header — any error from `AnyDecompressor::new` is
surfaced right there — and never later: once the data phase is reached, no
`Unsupported` error can be raised. -/
theorem C8_unsupported_method_at_header_parse :
    (∀ (e : Option Entry) (j : Option ParsedRanges),
       EntryFsm.new e none j ≠ none) ∧
    (∀ (fsm : EntryFsm) (features : Method → Bool)
       (header : LocalFileHeader) (consumed : Nat) (er : Error),
       AnyDecompressor.new features header.method fsm.entry = .err er →
       internalProcessLocalHeader fsm features (.ok header consumed) =
         .err er) ∧
    (∀ (fsm : EntryFsm) (features : Method → Bool)
       (header : LocalFileHeader) (consumed : Nat) (c : Nat),
       header.method = .other c →
       internalProcessLocalHeader fsm features (.ok header consumed) =
         .err (.unsupported (.methodNotSupported (.other c)))) ∧
    (∀ (fsm : EntryFsm) (features : Method → Bool)
       (header : LocalFileHeader) (consumed : Nat),
       (header.method = .deflate ∨ header.method = .deflate64 ∨
        header.method = .bzip2 ∨ header.method = .lzma ∨
        header.method = .zstd) →
       features header.method = false →
       internalProcessLocalHeader fsm features (.ok header consumed) =
         .err (.unsupported (.methodNotEnabled header.method))) ∧
    (∀ (fsm : EntryFsm) (ddPo : ParseResult DataDescriptorRecord)
       (out_cap : Nat) (u : UnsupportedError),
       processReadData fsm ddPo out_cap ≠ .err (.unsupported u)) := by
  refine ⟨?_, ?_, ?_, ?_, processReadData_not_unsupported⟩
  · intro e j h
    simp [EntryFsm.new] at h
  · intro fsm features header consumed er h
    simp only [internalProcessLocalHeader, h]
  · intro fsm features header consumed c hm
    have h2 : AnyDecompressor.new features header.method fsm.entry =
        .err (.unsupported (.methodNotSupported (.other c))) := by
      rw [hm]
      cases fsm.entry <;> rfl
    simp only [internalProcessLocalHeader, h2]
  · intro fsm features header consumed hm hf
    have h2 : AnyDecompressor.new features header.method fsm.entry =
        .err (.unsupported (.methodNotEnabled header.method)) := by
      rcases hm with hm | hm | hm | hm | hm <;>
        rw [hm] <;> rw [hm] at hf <;> simp [AnyDecompressor.new, hf]
    simp only [internalProcessLocalHeader, h2]

/-- Witness for C8 (amended) at concrete inputs: the unsupported method 99
and a compiled-out Deflate both surface their error from the local-header
parse step. -/
theorem C8_witness :
    internalProcessLocalHeader fsmUnsup allFeatures (.ok lhUnsup 30) =
      .err (.unsupported (.methodNotSupported (.other 99))) ∧
    internalProcessLocalHeader fsmUnsup noFeatures (.ok lhDeflate 30) =
      .err (.unsupported (.methodNotEnabled .deflate)) ∧
    EntryFsm.new (some entryUnsup) none none ≠ none := by
  refine ⟨?_, ?_, ?_⟩
  · exact C8_unsupported_method_at_header_parse.2.2.1 fsmUnsup allFeatures
      lhUnsup 30 99 rfl
  · exact C8_unsupported_method_at_header_parse.2.2.2.1 fsmUnsup noFeatures
      lhDeflate 30 (Or.inl rfl) rfl
  · exact C8_unsupported_method_at_header_parse.1 (some entryUnsup) none

/-- The `Validate` arm never yields `Continue`. -/
theorem processValidate_no_continue (fsm f : EntryFsm)
    (oc : DecompressOutcome) :
    processValidate fsm ≠ .continueWith f oc := by
  intro hc
  unfold processValidate at hc
  split at hc
  · split at hc
    · cases hc
    · split at hc
      · simp at hc
      · dsimp only at hc
        split at hc
        · simp at hc
        · simp at hc
  · cases hc

/-- If the `ReadDataDescriptor` arm yields `Continue`, the machine is
unchanged (only an incomplete parse continues). -/
theorem processReadDataDescriptor_continue_eq {fsm f : EntryFsm}
    {po : ParseResult DataDescriptorRecord} {oc : DecompressOutcome}
    (h : processReadDataDescriptor fsm po = .continueWith f oc) : f = fsm := by
  unfold processReadDataDescriptor at h
  split at h
  · split at h
    · injection h with h1 h2
      exact h1.symm
    · simp at h
    · simp at h
    · split at h
      · cases h
      · exact absurd h (processValidate_no_continue _ _ _)
  · cases h

/-- **C3.** The data phase clamps each turn to the remaining compressed
budget: the slice fed to the decompressor is at most
`compressed_size - compressed_bytes` long, so (given the decompressor
contract, proved here for the modelled codecs) the accumulated
`compressed_bytes` never exceeds `entry.compressed_size` across a run; and
`has_more_input = No` exactly when this turn exhausts the budget. -/
theorem C3_compressed_budget_clamp :
    (∀ (in_len cs cb : Nat), (clampInput in_len cs cb).1 ≤ cs - cb) ∧
    (∀ (in_len cs cb : Nat), cb ≤ cs →
       cb + (clampInput in_len cs cb).1 ≤ cs) ∧
    (∀ (in_len cs cb : Nat),
       (clampInput in_len cs cb).2 = .no ↔
         cb + (clampInput in_len cs cb).1 = cs) ∧
    (∀ (d : AnyDecompressor) (inb : List Nat) (cap : Nat)
       (hmi : HasMoreInput) (d1 : AnyDecompressor) (oc : DecompressOutcome)
       (w : List Nat),
       d.decompress inb cap hmi = .ok d1 oc w → oc.bytes_read ≤ inb.length) ∧
    (∀ (hdd is64 : Bool) (cb ub hs ds : Nat) (dec : AnyDecompressor)
       (e : Entry) (lh : Option LocalFileHeader) (buf : Buffer)
       (jr : Option ParsedRanges) (ax : Option AexData)
       (ddPo : ParseResult DataDescriptorRecord) (cap : Nat)
       (fsm1 : EntryFsm) (oc : DecompressOutcome) (hdd1 is641 : Bool)
       (cb1 ub1 hs1 ds1 : Nat) (dec1 : AnyDecompressor),
       cb ≤ e.compressed_size →
       processReadData
           ⟨.readData hdd is64 cb ub hs dec ds, some e, lh, buf, jr, ax⟩
           ddPo cap =
         .continueWith fsm1 oc →
       fsm1.state = .readData hdd1 is641 cb1 ub1 hs1 dec1 ds1 →
       cb1 ≤ e.compressed_size) := by
  refine ⟨?_, ?_, ?_, ?_, ?_⟩
  · intro in_len cs cb
    exact Nat.min_le_right _ _
  · intro in_len cs cb hcb
    have := Nat.min_le_right in_len (cs - cb)
    simp only [clampInput]
    omega
  · intro in_len cs cb
    simp only [clampInput]
    split_ifs with h
    · simp [h]
    · simp [h]
  · intro d inb cap hmi d1 oc w h
    exact AnyDecompressor.decompress_ok_bytes_le h
  · intro hdd is64 cb ub hs ds dec e lh buf jr ax ddPo cap fsm1 oc hdd1
      is641 cb1 ub1 hs1 ds1 dec1 hcb hproc hstate
    simp only [processReadData] at hproc
    split at hproc
    · injection hproc with h1 h2
      subst h1
      simp at hstate
      omega
    · split at hproc
      · cases hproc
      · cases hproc
      · next dec1' outcome written heq =>
          split at hproc
          · split at hproc
            · have hf := processReadDataDescriptor_continue_eq hproc
              subst hf
              simp at hstate
            · exact absurd hproc (processValidate_no_continue _ _ _)
          · split at hproc
            · cases hproc
            · injection hproc with h1 h2
              subst h1
              simp only at hstate
              have hread := AnyDecompressor.decompress_ok_bytes_le heq
              have h3 : (List.take (clampInput buf.data.length
                  e.compressed_size cb).1 buf.data).length ≤
                  (clampInput buf.data.length e.compressed_size cb).1 := by
                simp [List.length_take]
              have h4 : (clampInput buf.data.length e.compressed_size cb).1 ≤
                  e.compressed_size - cb := Nat.min_le_right _ _
              injection hstate with hs1 hs2 hs3
              omega

/-- A six-byte Store entry. -/
def entryStore6 : Entry :=
  { name := "s"
    method := .store
    crc32 := 0
    compressed_size := 6
    uncompressed_size := 6
    header_offset := 0
    aex := none }

/-- A machine mid-data-phase with three buffered bytes of `entryStore6`. -/
def fsmStore6 : EntryFsm :=
  { state := .readData false false 0 0 hasherNew .store 30
    entry := some entryStore6
    local_header := none
    buffer := { capacity := BUF_CAPACITY, data := [1, 2, 3] }
    parsed_ranges := none
    aex_data := none }

/-- Witness for C3 at concrete inputs: clamping at budget 6 from 0 with 10
buffered bytes; the Store codec reading at most its slice; and a concrete
`ReadData` turn of `entryStore6` advancing `compressed_bytes` to 3 ≤ 6. -/
theorem C3_witness :
    0 + (clampInput 10 6 0).1 ≤ 6 ∧
    (AnyDecompressor.store.decompress [1, 2] 64 .yes =
        .ok .store { bytes_read := 2, bytes_written := 2 } [1, 2] →
      (2 : Nat) ≤ 2) ∧
    3 ≤ entryStore6.compressed_size := by
  refine ⟨?_, ?_, ?_⟩
  · exact C3_compressed_budget_clamp.2.1 10 6 0 (by decide)
  · intro h
    exact C3_compressed_budget_clamp.2.2.2.1 .store [1, 2] 64 .yes .store
      { bytes_read := 2, bytes_written := 2 } [1, 2] h
  · exact C3_compressed_budget_clamp.2.2.2.2 false false 0 0 hasherNew 30
      .store entryStore6 none { capacity := BUF_CAPACITY, data := [1, 2, 3] }
      none none .incomplete 64
      { state := .readData false false 3 3 (hasherUpdate hasherNew [1, 2, 3])
          .store 30
        entry := some entryStore6
        local_header := none
        buffer := { capacity := BUF_CAPACITY, data := [] }
        parsed_ranges := none
        aex_data := none }
      { bytes_read := 3, bytes_written := 3 } false false 3 3
      (hasherUpdate hasherNew [1, 2, 3]) 30 .store (by decide) (by decide) rfl

/-- When the `Validate` arm finishes, the journal it hands back is exactly
the journal of the machine. -/
theorem processValidate_done_eq {fsm : EntryFsm} {b : Buffer}
    {l : Option LocalFileHeader} {a : Option AexData}
    {j : Option ParsedRanges}
    (h : processValidate fsm = .done b l a j) : j = fsm.parsed_ranges := by
  unfold processValidate at h
  split at h
  · split at h
    · cases h
    · split at h
      · simp at h
      · dsimp only at h
        split at h
        · simp at h
        · injection h with h1 h2 h3 h4
          exact h4.symm
  · cases h

/-- A zero-byte Store entry (e.g. a directory entry). -/
def entryZero : Entry :=
  { name := "d/"
    method := .store
    crc32 := 0
    compressed_size := 0
    uncompressed_size := 0
    header_offset := 100
    aex := none }

/-- The machine for `entryZero` mid-data-phase: the 30-byte local header at
offset 100 was parsed and recorded, data starts at 130, nothing buffered. -/
def fsmZero : EntryFsm :=
  { state := .readData false false 0 0 hasherNew .store 130
    entry := some entryZero
    local_header := none
    buffer := { capacity := BUF_CAPACITY, data := [] }
    parsed_ranges := some [⟨100, 130, "local file header", some "d/"⟩]
    aex_data := none }

/-- **C1 (code bug).** Evaluation of the embedded code at the failing
inputs. First half: one central-directory pass at `directory_offset = 1000`
parsing three headers of byte sizes 50, 46 and 46. The first two ranges are
recorded correctly, but `current_header_offset` is advanced by the
*cumulative* `valid_consumed` after every header (`fsm/archive.rs` line
312) instead of by that header's own size, so the third range comes out as
`[1146, 1142)` — start past end — contradicting the claimed invariant
`0 ≤ s < e ≤ S`; the drift worsens with every further header of the pass.
Second half: a zero-byte entry completes successfully (`Done`, validation
passes) and records the empty `file data` range `[130, 130)`, another
violation of the strict `s < e`. -/
theorem C1_parsed_range_invariant_violations :
    (readCentralDirectoryPass 1000 (fun _ => none)
        [(utf8Header, 50), (utf8Header, 46), (utf8Header, 46)]
        0 1000 [] []).1 =
      [⟨1000, 1050, "central directory header", none⟩,
       ⟨1050, 1096, "central directory header", none⟩,
       ⟨1146, 1142, "central directory header", none⟩] ∧
    ¬ ((1146 : Nat) ≤ 1142) ∧
    processReadData fsmZero .incomplete 1024 =
      .done { capacity := BUF_CAPACITY, data := [] } none none
        (some [⟨100, 130, "local file header", some "d/"⟩,
               ⟨130, 130, "file data", some "d/"⟩]) ∧
    ¬ ((130 : Nat) < 130) := by
  refine ⟨?_, by decide, ?_, by decide⟩
  · decide
  · decide

/-- An entry with AE-x data whose declared sizes and CRC disagree with the
accumulated metrics. -/
def entryAex : Entry :=
  { name := "e"
    method := .aex
    crc32 := 5
    compressed_size := 40
    uncompressed_size := 99
    header_offset := 0
    aex := some ⟨3⟩ }

/-- Witness for C2 at concrete inputs: a matching plain entry reaches
`Done`, and an AE-x entry reaches `Done` even though size (99 vs 7) and
CRC (5 vs 123) disagree. -/
theorem C2_witness :
    processValidate ⟨.validate ⟨6, 0⟩ none, some entryPlain, none,
        Buffer.with_capacity 0, none, none⟩ =
      .done (Buffer.with_capacity 0) none none none ∧
    processValidate ⟨.validate ⟨7, 123⟩ none, some entryAex, none,
        Buffer.with_capacity 0, none, none⟩ =
      .done (Buffer.with_capacity 0) none none none := by
  constructor
  · exact (C2_validate_size_and_checksum entryPlain ⟨6, 0⟩ none none
      (Buffer.with_capacity 0) none none).2.2.2.1 (Or.inl rfl)
      (Or.inl (by decide))
  · exact (C2_validate_size_and_checksum entryAex ⟨7, 123⟩ none none
      (Buffer.with_capacity 0) none none).2.2.2.2 (by decide)

/-- A non-UTF-8 header containing a byte in `0xB0..=0xDF`. -/
def hdrB5 : CentralDirectoryFileHeader :=
  { name := [181], comment := [], flags := 0 }

/-- Witness for C6 (amended) at concrete inputs: an all-UTF-8 directory is
`Utf8` regardless of the detector, and a Shift-JIS guess with a suspicious
byte resolves through the tie-break. -/
theorem C6_witness :
    detectEncoding [utf8Header] (fun _ => .shiftJis) = .utf8 ∧
    detectEncoding [hdrB5] (fun _ => .shiftJis) =
      (if hadSuspiciousChars [hdrB5] then Encoding.shiftJis
       else Encoding.cp437) := by
  constructor
  · exact C6_encoding_detection.1 [utf8Header] (fun _ => .shiftJis)
      (by decide)
  · exact C6_encoding_detection.2.1 [hdrB5] (fun _ => .shiftJis)
      ⟨hdrB5, by decide, by decide⟩

end ZipLinter
